import Mathlib

/-!
Shallow embedding of the vega-lite scale-resolution and domain-merging engine
(`src/compile/scale.ts`, given as `src/unnamed/part_000`, and the size
initialization of `src/compile/unit.ts`).  Pure functions of the source are
translated into Lean functions; the compilation model object is represented as
a structure of lookup functions; JavaScript runtime errors (null dereference,
explicit `throw`) are represented with `Except`.
-/

namespace VL

/-- Visual channels of the chart model (`channel.ts`, not under `src/`). -/
inductive Channel
  | x | y | row | column | size | shape | color | text | detail | order
deriving DecidableEq, Repr

/-- Measurement types of a field (`type.ts`). -/
inductive FieldType
  | nominal | ordinal | quantitative | temporal
deriving DecidableEq, Repr

/-- Scale categories (`scale.ts`). -/
inductive ScaleType
  | linear | log | pow | sqrt | quantile | quantize | threshold | ordinal | time | utc
deriving DecidableEq, Repr

/-- Time-granularity units (`timeunit.ts`). -/
inductive TimeUnit
  | year | month | day | date | hours | minutes | seconds | yearmonth | monthdate
deriving DecidableEq, Repr

def timeUnitName : TimeUnit → String
  | .year => "year"
  | .month => "month"
  | .day => "day"
  | .date => "date"
  | .hours => "hours"
  | .minutes => "minutes"
  | .seconds => "seconds"
  | .yearmonth => "yearmonth"
  | .monthdate => "monthdate"

/-- Mark types (`mark.ts`). -/
inductive Mark
  | bar | point | circle | square | tick | rule | text | line | area
deriving DecidableEq, Repr

/-- Modelled from the spec: `hasScale` of the missing `channel.ts` — rule 1 of
scale-type resolution says a channel that carries no visual scale (a pure
detail-like channel) resolves to none; position, facet, size, shape and color
channels carry scales. -/
def hasScale (channel : Channel) : Bool :=
  !([Channel.text, Channel.detail, Channel.order].contains channel)

/-- A field description (`fielddef.ts`): field name, measurement type, and
optional aggregation / bin / time-unit modifiers. -/
structure FieldDef where
  field : String := ""
  type : FieldType := .nominal
  aggregate : Option String := none
  bin : Bool := false
  timeUnit : Option TimeUnit := none
deriving DecidableEq, Repr

/-- Modelled from the spec: `SHARED_DOMAIN_OPS` of the missing `aggregate.ts` —
the aggregation operations whose output range equals the underlying field's own
value range (sum and count are excluded). -/
def SHARED_DOMAIN_OPS : List String :=
  ["mean", "average", "median", "q1", "q3", "min", "max"]

/-- A sort directive attached to a vega domain or range: either a boolean or a
field/op pair. -/
inductive SortDef
  | bool (b : Bool)
  | fieldOp (field : String) (op : String)
deriving DecidableEq, Repr

/-- Plain (non-union) vega domain descriptors (`vega.schema.ts`): explicit
literal list, data reference with one field, or data reference with several
fields. -/
inductive BaseDomain
  | lit (vals : List Int)
  | ref (data : String) (field : String) (sort : Option SortDef)
  | refs (data : String) (fields : List String)
deriving DecidableEq, Repr

/-- Vega domain descriptors produced by `domain` and `mergeScales`: a plain
domain or a union of plain domains (`isUnionedDomain` of `vega.schema.ts`
distinguishes the two; a vega unioned domain holds plain member domains). -/
inductive VgDomain
  | base (d : BaseDomain)
  | union (fields : List BaseDomain)
deriving DecidableEq, Repr

def VgDomain.isUnion : VgDomain → Bool
  | .union _ => true
  | .base _ => false

/-- Vega range descriptors: layout-bound ranges, numeric lists, palettes, or a
data reference (used by the legend scales). -/
inductive VgRange
  | width
  | height
  | nums (ns : List Int)
  | strs (ss : List String)
  | dataRef (data : String) (field : String) (sort : Option SortDef)
deriving DecidableEq, Repr

/-- Value of the optional `nice` scale property: boolean or a time-unit name. -/
inductive NiceValue
  | b (v : Bool)
  | unit (u : String)
deriving DecidableEq, Repr

/-- A scale specification/override as carried by the model (`scale.ts`).  The
`type` field is the explicit category before resolution and the resolved
category afterwards.  `includeRawDomain` holds the resolved flag (the scale's
explicit request or the configuration default, folded in by the excluded init
stage). -/
structure Scale where
  type : Option ScaleType := none
  domain : Option VgDomain := none
  range : Option VgRange := none
  includeRawDomain : Bool := false
  bandSize : Option Int := none
  clamp : Option Bool := none
  exponent : Option Int := none
  nice : Option NiceValue := none
  padding : Option Int := none
  round : Option Bool := none
  zero : Option Bool := none
deriving DecidableEq, Repr

/-- A sort specification on a channel: a plain order string or a
sort-by-aggregate object. -/
inductive SortSpec
  | str (s : String)
  | byAgg (op : String) (field : String) (order : Option String)
deriving DecidableEq, Repr

/-- Stack offset modes (`config.ts`). -/
inductive StackOffset
  | zero | center | normalize
deriving DecidableEq, Repr

/-- Stack descriptor (`stack.ts`): the stacked field's channel and the offset
mode. -/
structure StackProperties where
  fieldChannel : Channel
  offset : StackOffset
deriving DecidableEq, Repr

structure CellConfig where
  width : Int := 200
  height : Int := 200
deriving DecidableEq, Repr

structure MarkConfig where
  orient : Option String := none
  barThinSize : Int := 2
deriving DecidableEq, Repr

structure ScaleConfig where
  bandSize : Int := 21
  barSizeRange : Option VgRange := none
  fontSizeRange : VgRange := .nums [8, 40]
  ruleSizeRange : VgRange := .nums [1, 5]
  tickSizeRange : VgRange := .nums [1, 20]
  pointSizeRange : Option VgRange := none
  shapeRange : VgRange := .strs ["circle", "cross", "diamond", "square"]
  nominalColorRange : VgRange := .strs ["category10"]
  sequentialColorRange : VgRange := .strs ["#AFC6A3", "#09622A"]
deriving DecidableEq, Repr

structure Config where
  cell : CellConfig := {}
  mark : MarkConfig := {}
  scale : ScaleConfig := {}
deriving DecidableEq, Repr

/-- Options of the field-reference builder (`fielddef.ts`). -/
structure FieldRefOption where
  prefn : String := ""
  binSuffix : String := ""
  noAggregate : Bool := false
deriving DecidableEq, Repr

/-- Modelled from the spec: the field-reference builder `field` of the missing
`fielddef.ts` — binned fields reference `bin_<field><suffix>`, aggregated
fields reference `<op>_<field>` unless aggregation is suppressed, time-unit
fields reference `<unit>_<field>`, and an optional `prefn` (such as the rank
transform) is prepended. -/
def fieldRef (fd : FieldDef) (opt : FieldRefOption) : String :=
  let base :=
    if fd.bin then "bin_" ++ fd.field ++ opt.binSuffix
    else
      match fd.aggregate, opt.noAggregate with
      | some a, false => a ++ "_" ++ fd.field
      | _, _ =>
        match fd.timeUnit with
        | some tu => timeUnitName tu ++ "_" ++ fd.field
        | none => fd.field
  opt.prefn ++ base

/-- Modelled from the spec: the named data tables of the missing `data.ts`.
`SCALE` is the shared summary table (and, used bare, the unaggregated scale
source); `STACKED_SCALE` is the pre-summed stacking table. -/
def SCALE : String := "scale"

def STACKED_SCALE : String := "stacked_scale"

/-- The compilation model surface consumed by the scale engine: per-channel
field/scale/sort/legend lookups, the stack descriptor, the name scope used by
`dataName`/`scaleName`, the mark, and the configuration. -/
structure Model where
  fieldDefOf : Channel → FieldDef
  scaleOf : Channel → Option Scale
  sortOf : Channel → Option SortSpec
  legendOf : Channel → Bool
  stackOf : Option StackProperties
  namePre : String
  hasCh : Channel → Bool
  encOf : Channel → Option FieldDef
  markM : Mark
  channelsList : List Channel
  config : Config

def Model.dataName (m : Model) (d : String) : String := m.namePre ++ d

def Model.scaleName (m : Model) (s : String) : String := m.namePre ++ s

def Model.field (m : Model) (channel : Channel) (opt : FieldRefOption) : String :=
  fieldRef (m.fieldDefOf channel) opt

def Model.scale (m : Model) (channel : Channel) : Scale :=
  (m.scaleOf channel).getD {}

/-- Modelled from the spec: `rawDomain` of the missing `compile/time.ts` —
true when the time-granularity has a canonical small cyclical domain
(seconds, minutes, hours, day-of-week, month), in which case the temporal
domain references a fixed lookup table keyed by that unit. -/
def rawDomain (timeUnit : Option TimeUnit) (_channel : Channel) : Bool :=
  match timeUnit with
  | some .seconds | some .minutes | some .hours | some .day | some .month => true
  | _ => false

/-- Modelled from the spec: `smallestUnit` of the missing `compile/time.ts`,
the smallest-unit-aligned nicing granularity of a time unit. -/
def smallestUnit (timeUnit : Option TimeUnit) : Option String :=
  match timeUnit with
  | none => none
  | some .seconds => some "second"
  | some .minutes => some "minute"
  | some .hours => some "hour"
  | some .day | some .date | some .monthdate => some "day"
  | some .month | some .yearmonth => some "month"
  | some .year => some "year"

/-- `scaleType` of `scale.ts` lines 149-199: resolve the scale category from
channel, explicit category, field type, time unit and bin flag. -/
def scaleType (scale : Scale) (fieldDef : FieldDef) (channel : Channel) (_mark : Mark) :
    Option ScaleType :=
  if !hasScale channel then
    none
  else if [Channel.row, Channel.column, Channel.shape].contains channel then
    some .ordinal
  else
    match scale.type with
    | some t => some t
    | none =>
      match fieldDef.type with
      | .nominal => some .ordinal
      | .ordinal => if channel = .color then some .linear else some .ordinal
      | .temporal =>
        if channel = .color then some .time
        else
          match fieldDef.timeUnit with
          | some .hours | some .day | some .month => some .ordinal
          | _ => some .time
      | .quantitative =>
        if fieldDef.bin then
          if [Channel.x, Channel.y, Channel.color].contains channel then some .linear
          else some .ordinal
        else some .linear

/-- `domainSort` of `scale.ts` lines 285-305. -/
def domainSort (model : Model) (channel : Channel) (sType : Option ScaleType) :
    Option SortDef :=
  if sType ≠ some ScaleType.ordinal then none
  else
    match model.sortOf channel with
    | none => some (.bool true)
    | some (.str s) =>
      if s = "ascending" ∨ s = "descending" then some (.bool true) else none
    | some (.byAgg op f _) => some (.fieldOp f op)

/-- `_includeRawDomain` of `scale.ts` lines 315-332: the raw-domain override
condition. -/
def _includeRawDomain (scale : Scale) (model : Model) (channel : Channel) : Bool :=
  let fieldDef := model.fieldDefOf channel
  scale.includeRawDomain &&
    (match fieldDef.aggregate with
     | some a => SHARED_DOMAIN_OPS.contains a
     | none => false) &&
    ((decide (fieldDef.type = FieldType.quantitative) && !fieldDef.bin) ||
     (decide (fieldDef.type = FieldType.temporal) &&
      [some ScaleType.time, some ScaleType.utc].contains scale.type))

/-- The non-temporal, non-stacked tail of `domain` (`scale.ts` lines 240-282):
raw-domain override, then bin, then sort, then the default summary reference. -/
def domainRest (scale : Scale) (model : Model) (channel : Channel) (fieldDef : FieldDef) :
    VgDomain :=
  let includeRawDomain := _includeRawDomain scale model channel
  let sort := domainSort model channel scale.type
  if includeRawDomain then
    .base (.ref SCALE (model.field channel { noAggregate := true }) none)
  else if fieldDef.bin then
    if scale.type = some ScaleType.ordinal then
      .base (.ref (model.dataName SCALE) (model.field channel { binSuffix := "_range" })
        (some (.fieldOp (model.field channel { binSuffix := "_start" }) "min")))
    else if channel = .color then
      .base (.ref (model.dataName SCALE) (model.field channel { binSuffix := "_start" }) none)
    else
      .base (.refs (model.dataName SCALE)
        [model.field channel { binSuffix := "_start" },
         model.field channel { binSuffix := "_end" }])
  else
    match sort with
    | some s =>
      .base (.ref (match s with
            | .fieldOp _ _ => SCALE
            | .bool _ => model.dataName SCALE)
        (if fieldDef.type = FieldType.ordinal ∧ channel = Channel.color then
           model.field channel { prefn := "rank_" }
         else model.field channel {})
        (some s))
    | none =>
      .base (.ref (model.dataName SCALE)
        (if fieldDef.type = FieldType.ordinal ∧ channel = Channel.color then
           model.field channel { prefn := "rank_" }
         else model.field channel {})
        none)

/-- `domain` of `scale.ts` lines 201-283: explicit domain, then the temporal
rule, then the stacked-channel rule, then `domainRest`. -/
def domain (scale : Scale) (model : Model) (channel : Channel) : VgDomain :=
  let fieldDef := model.fieldDefOf channel
  match scale.domain with
  | some d => d
  | none =>
    if fieldDef.type = FieldType.temporal then
      if rawDomain fieldDef.timeUnit channel then
        .base (.ref (match fieldDef.timeUnit with
              | some tu => timeUnitName tu
              | none => "") "date" none)
      else
        .base (.ref (model.dataName SCALE) (model.field channel {})
          (some (.fieldOp (model.field channel {}) "min")))
    else
      match model.stackOf with
      | some stack =>
        if channel = stack.fieldChannel then
          if stack.offset = StackOffset.normalize then
            .base (.lit [0, 1])
          else
            .base (.ref (model.dataName STACKED_SCALE)
              (model.field channel { prefn := "sum_" }) none)
        else domainRest scale model channel fieldDef
      | none => domainRest scale model channel fieldDef

/-- Truthiness of an optional number in JavaScript (`undefined` and `0` are
falsy); used to mirror `||` fallbacks and `&&` guards on optional numbers. -/
def jsTruthy (o : Option Int) : Bool :=
  match o with
  | none => false
  | some n => decide (n ≠ 0)

/-- JavaScript `a || b` on an optional number. -/
def orNum (o : Option Int) (d : Int) : Int :=
  match o with
  | some n => if n = 0 then d else n
  | none => d

/-- Modelled from the spec: `isMeasure` of the missing `fielddef.ts` — a
measure is a continuous field (quantitative unbinned, or temporal without a
time-granularity); any other bound field is a dimension (discrete). -/
def isMeasure (fd : Option FieldDef) : Bool :=
  match fd with
  | none => false
  | some f =>
    (decide (f.type = FieldType.quantitative) && !f.bin) ||
    (decide (f.type = FieldType.temporal) && decide (f.timeUnit = none))

/-- `pointBandSize` of `scale.ts` lines 407-429. -/
def pointBandSize (model : Model) : Int :=
  let scaleConfig := model.config.scale
  let hasX := model.hasCh .x
  let hasY := model.hasCh .y
  let xIsMeasure := isMeasure (model.encOf .x)
  let yIsMeasure := isMeasure (model.encOf .y)
  if hasX && hasY then
    if xIsMeasure != yIsMeasure then
      ((model.scale (if xIsMeasure then Channel.y else Channel.x)).bandSize).getD 0
    else
      min (orNum (model.scale .x).bandSize scaleConfig.bandSize)
          (orNum (model.scale .y).bandSize scaleConfig.bandSize)
  else if hasY then
    if yIsMeasure then scaleConfig.bandSize else ((model.scale .y).bandSize).getD 0
  else if hasX then
    if xIsMeasure then scaleConfig.bandSize else ((model.scale .x).bandSize).getD 0
  else scaleConfig.bandSize

/-- The range mixins merged into a scale descriptor by `rangeMixins`
(`scale.ts`): an ordinal band size, an explicit/configured range, or the
`rangeMin`/`rangeMax` pair of a position channel. -/
inductive RangeMixins
  | bandSize (n : Int)
  | range (r : VgRange)
  | minMax (rangeMin : Int) (rangeMax : Int)
  | empty
deriving DecidableEq, Repr

/-- `rangeMixins` of `scale.ts` lines 335-405. -/
def rangeMixins (scale : Scale) (model : Model) (channel : Channel) : RangeMixins :=
  let fieldDef := model.fieldDefOf channel
  let scaleConfig := model.config.scale
  if scale.type = some ScaleType.ordinal ∧ jsTruthy scale.bandSize = true ∧
      [Channel.x, Channel.y].contains channel then
    .bandSize (scale.bandSize.getD 0)
  else if scale.range.isSome ∧
      ¬ [Channel.x, Channel.y, Channel.row, Channel.column].contains channel then
    .range (scale.range.getD (.nums []))
  else
    match channel with
    | .row => .range .height
    | .column => .range .width
    | .x => .minMax 0 model.config.cell.width
    | .y => .minMax model.config.cell.height 0
    | .size =>
      (match model.markM with
       | .bar =>
         (match scaleConfig.barSizeRange with
          | some r => .range r
          | none =>
            let dimension :=
              if model.config.mark.orient = some "horizontal" then Channel.y else Channel.x
            .range (.nums [model.config.mark.barThinSize,
                           ((model.scale dimension).bandSize).getD 0]))
       | .text => .range scaleConfig.fontSizeRange
       | .rule => .range scaleConfig.ruleSizeRange
       | .tick => .range scaleConfig.tickSizeRange
       | _ =>
         (match scaleConfig.pointSizeRange with
          | some r => .range r
          | none =>
            let bandSize := pointBandSize model
            .range (.nums [9, (bandSize - 2) * (bandSize - 2)])))
    | .shape => .range scaleConfig.shapeRange
    | .color =>
      if fieldDef.type = FieldType.nominal then .range scaleConfig.nominalColorRange
      else .range scaleConfig.sequentialColorRange
    | _ => .empty

/-- `clamp` of `scale.ts` lines 431-439. -/
def clamp (scale : Scale) : Option Bool :=
  if [some ScaleType.linear, some ScaleType.pow, some ScaleType.sqrt,
      some ScaleType.log, some ScaleType.time, some ScaleType.utc].contains scale.type then
    scale.clamp
  else none

/-- `exponent` of `scale.ts` lines 441-446. -/
def exponent (scale : Scale) : Option Int :=
  if scale.type = some ScaleType.pow then scale.exponent else none

/-- `nice` of `scale.ts` lines 448-461. -/
def nice (scale : Scale) (channel : Channel) (fieldDef : FieldDef) : Option NiceValue :=
  if [some ScaleType.linear, some ScaleType.pow, some ScaleType.sqrt, some ScaleType.log,
      some ScaleType.time, some ScaleType.utc, some ScaleType.quantize].contains scale.type then
    match scale.nice with
    | some v => some v
    | none =>
      if [some ScaleType.time, some ScaleType.utc].contains scale.type then
        (smallestUnit fieldDef.timeUnit).map NiceValue.unit
      else some (.b ([Channel.x, Channel.y].contains channel))
  else none

/-- `padding` of `scale.ts` lines 464-477. -/
def padding (scale : Scale) (channel : Channel) : Option Int :=
  if scale.type = some ScaleType.ordinal ∧ [Channel.x, Channel.y].contains channel then
    scale.padding
  else none

/-- `points` of `scale.ts` lines 479-486. -/
def points (scale : Scale) (channel : Channel) : Option Bool :=
  if scale.type = some ScaleType.ordinal ∧ [Channel.x, Channel.y].contains channel then
    some true
  else none

/-- `round` of `scale.ts` lines 488-494. -/
def round (scale : Scale) (channel : Channel) : Option Bool :=
  if [Channel.x, Channel.y, Channel.row, Channel.column, Channel.size].contains channel then
    scale.round
  else none

/-- `zero` of `scale.ts` lines 496-506. -/
def zero (scale : Scale) (channel : Channel) (fieldDef : FieldDef) : Option Bool :=
  if ¬ [some ScaleType.time, some ScaleType.utc, some ScaleType.ordinal].contains scale.type then
    match scale.zero with
    | some z => some z
    | none => some (!fieldDef.bin && [Channel.x, Channel.y].contains channel)
  else none

def channelName : Channel → String
  | .x => "x"
  | .y => "y"
  | .row => "row"
  | .column => "column"
  | .size => "size"
  | .shape => "shape"
  | .color => "color"
  | .text => "text"
  | .detail => "detail"
  | .order => "order"

/-- A compiled vega scale descriptor (`VgScale` of `vega.schema.ts`): identity
name, resolved category, domain, range mixins, and the optional properties set
by `parseMainScale`. -/
structure VgScale where
  name : String
  type : Option ScaleType := none
  domain : VgDomain := .base (.lit [])
  rangeM : RangeMixins := .empty
  reverse : Bool := false
  round : Option Bool := none
  clamp : Option Bool := none
  nice : Option NiceValue := none
  exponent : Option Int := none
  zero : Option Bool := none
  padding : Option Int := none
  points : Option Bool := none
deriving DecidableEq, Repr

/-- `parseMainScale` of `scale.ts` lines 70-104: build the main scale of a
channel from name, resolved type, domain, range mixins, sort reversal, and the
optional property rules. -/
def parseMainScale (model : Model) (fieldDef : FieldDef) (channel : Channel)
    (scale : Scale) : VgScale :=
  { name := model.scaleName (channelName channel)
    type := scale.type
    domain := domain scale model channel
    rangeM := rangeMixins scale model channel
    reverse :=
      (match model.sortOf channel with
       | some (.str s) => decide (s = "descending")
       | some (.byAgg _ _ ord) => decide (ord = some "descending")
       | none => false)
    round := round scale channel
    clamp := clamp scale
    nice := nice scale channel fieldDef
    exponent := exponent scale
    zero := zero scale channel fieldDef
    padding := padding scale channel
    points := points scale channel }

def COLOR_LEGEND : String := "color_legend"

def COLOR_LEGEND_LABEL : String := "color_legend_label"

/-- `parseColorLegendScale` of `scale.ts` lines 112-124. -/
def parseColorLegendScale (model : Model) (fieldDef : FieldDef) : VgScale :=
  { name := model.scaleName COLOR_LEGEND
    type := some .ordinal
    domain := .base (.ref (model.dataName SCALE)
      (model.field .color
        (if fieldDef.bin ∨ fieldDef.timeUnit.isSome then {} else { prefn := "rank_" }))
      (some (.bool true)))
    rangeM := .range (.dataRef (model.dataName SCALE) (model.field .color {})
      (some (.bool true))) }

/-- `parseBinColorLegendLabel` of `scale.ts` lines 129-147. -/
def parseBinColorLegendLabel (model : Model) (fieldDef : FieldDef) : VgScale :=
  { name := model.scaleName COLOR_LEGEND_LABEL
    type := some .ordinal
    domain := .base (.ref (model.dataName SCALE) (model.field .color {})
      (some (.bool true)))
    rangeM := .range (.dataRef (model.dataName SCALE)
      (fieldRef fieldDef { binSuffix := "_range" })
      (some (.fieldOp (model.field .color { binSuffix := "_start" }) "min"))) }

/-- The per-channel scale component set (`ScaleComponents` of `scale.ts`). -/
structure ScaleComponents where
  main : VgScale
  colorLegend : Option VgScale := none
  binColorLegend : Option VgScale := none
deriving DecidableEq, Repr

/-- The per-channel body of the `parseScaleComponent` reduce (`scale.ts` lines
46-61): the main scale, plus the auxiliary color-legend scales when the channel
is color, a color legend is requested, and the field is ordinal, binned or has
a time unit (the bin-label scale additionally requires a binned field). -/
def parseChannelScales (model : Model) (channel : Channel) (scale : Scale) :
    ScaleComponents :=
  let fieldDef := model.fieldDefOf channel
  let scales : ScaleComponents := { main := parseMainScale model fieldDef channel scale }
  if channel = Channel.color ∧ model.legendOf .color = true ∧
      (fieldDef.type = FieldType.ordinal ∨ fieldDef.bin = true ∨ fieldDef.timeUnit.isSome = true) then
    { scales with
      colorLegend := some (parseColorLegendScale model fieldDef)
      binColorLegend :=
        if fieldDef.bin then some (parseBinColorLegendLabel model fieldDef) else none }
  else scales

/-- `parseScaleComponent` of `scale.ts` lines 44-65: one component set per
channel that has a scale. -/
def parseScaleComponent (model : Model) : List (Channel × ScaleComponents) :=
  model.channelsList.filterMap (fun channel =>
    (model.scaleOf channel).map (fun scale => (channel, parseChannelScales model channel scale)))

/-- A sub-view of a layered chart as seen by `mergeScales`: its name scope (the
result of `child.name('')`) and its per-channel scale components for the
channel being merged (`child.component.scale[channel]`, which may be absent). -/
structure LayerChild where
  namePre : String
  comp : Option ScaleComponents
deriving DecidableEq, Repr

/-- JavaScript runtime failures of the merge (`mergeScales` dereferences the
component set without a null check). -/
inductive MergeError
  | nullDereference
deriving DecidableEq, Repr

/-- The renaming of `scale.ts` lines 550-553: strip the child's name scope from
the scale name and re-scope it under the layer model. -/
def renameScale (parentPre : String) (childPre : String) (s : VgScale) : VgScale :=
  { s with name := parentPre ++ s.name.drop childPre.length }

def renameComponents (parentPre : String) (childPre : String) (cs : ScaleComponents) :
    ScaleComponents :=
  { main := renameScale parentPre childPre cs.main
    colorLegend := cs.colorLegend.map (renameScale parentPre childPre)
    binColorLegend := cs.binColorLegend.map (renameScale parentPre childPre) }

/-- The `domains[hash(domain)] = domain` assignment of `scale.ts` lines
529-536: a JavaScript object keyed by the structural hash keeps the first
insertion position of each distinct domain and overwrites equal values. -/
def insertDomain (ds : List BaseDomain) (d : BaseDomain) : List BaseDomain :=
  if d ∈ ds then ds else ds ++ [d]

/-- Flatten one child main-scale domain into the collection: a union domain is
expanded into its member domains, a plain domain is inserted whole. -/
def collectDomain (ds : List BaseDomain) (d : VgDomain) : List BaseDomain :=
  match d with
  | .union fs => fs.foldl insertDomain ds
  | .base b => insertDomain ds b

/-- The final domain construction of `scale.ts` lines 560-569: a single
surviving domain is used directly, otherwise a union domain lists them all. -/
def mergeDomainList (ds : List BaseDomain) : VgDomain :=
  match ds with
  | [d] => .base d
  | other => .union other

/-- One iteration of the `model.children().forEach` loop of `mergeScales`
(`scale.ts` lines 516-557): skip children without components; rename the
child's scales into the parent scope; adopt the whole set if it is the first,
otherwise adopt only the first-seen auxiliary legend scales; and flatten the
child's main-scale domain into the collection.  (In the source the adoption
happens before the rename, but the adopted object is aliased and therefore
renamed by the same iteration.) -/
def mergeStep (parentPre : String) (st : Option ScaleComponents × List BaseDomain)
    (child : LayerChild) : Option ScaleComponents × List BaseDomain :=
  match child.comp with
  | none => st
  | some childScales =>
    let ds := collectDomain st.2 childScales.main.domain
    let renamed := renameComponents parentPre child.namePre childScales
    let sc :=
      match st.1 with
      | none => renamed
      | some sc₀ =>
        { sc₀ with
          colorLegend :=
            (match sc₀.colorLegend with
             | some cl => some cl
             | none => renamed.colorLegend)
          binColorLegend :=
            (match sc₀.binColorLegend with
             | some bl => some bl
             | none => renamed.binColorLegend) }
    (some sc, ds)

/-- `mergeScales` of `scale.ts` lines 511-581: fold the children, then set the
merged domain on the main scale and on both auxiliary legend scales.  The final
assignment `scaleComp.main.domain = domain` is unguarded in the source, so a
channel no child defines raises a TypeError (a null dereference). -/
def mergeScales (parentPre : String) (children : List LayerChild) :
    Except MergeError ScaleComponents :=
  let st := children.foldl (mergeStep parentPre) (none, [])
  match st.1 with
  | none => .error .nullDereference
  | some sc =>
    let dom := mergeDomainList st.2
    .ok { main := { sc.main with domain := dom }
          colorLegend := sc.colorLegend.map (fun s => { s with domain := dom })
          binColorLegend := sc.binColorLegend.map (fun s => { s with domain := dom }) }

/-- Range-step configuration of the newer `unit.ts`: a numeric step or a
string preset. -/
inductive RangeStep
  | num (n : Int)
  | str (s : String)
deriving DecidableEq, Repr

/-- The per-channel scale data consulted by `initSize` (`unit.ts`). -/
structure UnitScale where
  type : ScaleType
  rangeStep : Option Int := none
deriving DecidableEq, Repr

/-- Modelled from the spec: `hasDiscreteDomain` of the missing newer
`scale.ts` — the discrete-domain scale categories are the ordinal family. -/
def hasDiscreteDomain (t : ScaleType) : Bool :=
  decide (t = ScaleType.ordinal)

/-- The scale configuration consulted by `initSize` (`config.ts` of the newer
tree). -/
structure UnitScaleConfig where
  rangeStep : RangeStep := .num 21
  textXRangeStep : Int := 90
deriving DecidableEq, Repr

/-- `initSize` of `src/compile/unit.ts` lines 189-222: compute implicit
width/height; a missing position scale with a non-numeric (string) configured
range step throws synchronously.  An undefined result dimension models the
dynamic-size case. -/
def initSize (mark : Mark) (scaleX : Option UnitScale) (scaleY : Option UnitScale)
    (width : Option Int) (height : Option Int) (cell : CellConfig)
    (scaleConfig : UnitScaleConfig) : Except String (Option Int × Option Int) := do
  let w ←
    match width with
    | some w₀ => pure (some w₀)
    | none =>
      match scaleX with
      | some sx =>
        if !hasDiscreteDomain sx.type ∨ !jsTruthy sx.rangeStep then pure (some cell.width)
        else pure none
      | none =>
        if mark = Mark.text then pure (some scaleConfig.textXRangeStep)
        else
          match scaleConfig.rangeStep with
          | .str _ => Except.error "_initSize does not handle string rangeSteps"
          | .num n => pure (some n)
  let h ←
    match height with
    | some h₀ => pure (some h₀)
    | none =>
      match scaleY with
      | some sy =>
        if !hasDiscreteDomain sy.type ∨ !jsTruthy sy.rangeStep then pure (some cell.height)
        else pure none
      | none =>
        match scaleConfig.rangeStep with
        | .str _ => Except.error "_initSize does not handle string rangeSteps"
        | .num n => pure (some n)
  return (w, h)

/-- A neutral concrete model used by the concrete instances below. -/
def baseModel : Model :=
  { fieldDefOf := fun _ => { field := "f", type := .quantitative }
    scaleOf := fun _ => some {}
    sortOf := fun _ => none
    legendOf := fun _ => true
    stackOf := none
    namePre := "p_"
    hasCh := fun _ => false
    encOf := fun _ => none
    markM := .point
    channelsList := [.x, .y, .color]
    config := {} }

/-- C5 amended claim: for every scaled channel other than the row-facet,
column-facet and shape channels, an explicit scale category is returned
unchanged by scaleType. -/
theorem scaleType_explicit_wins (scale : Scale) (fieldDef : FieldDef) (channel : Channel)
    (mark : Mark) (t : ScaleType) (ht : scale.type = some t)
    (hs : hasScale channel = true) (hrow : channel ≠ .row) (hcol : channel ≠ .column)
    (hshape : channel ≠ .shape) :
    scaleType scale fieldDef channel mark = some t := by
  cases channel <;> simp_all [scaleType, hasScale]

/-- C5 counterexample: the shape channel carries a scale, yet an explicitly
linear scale category is overridden to ordinal, so explicit does not always
win. -/
theorem scaleType_shape_explicit_counterexample :
    hasScale Channel.shape = true ∧
    scaleType { type := some ScaleType.linear } { field := "f", type := .quantitative }
      Channel.shape Mark.point ≠ some ScaleType.linear ∧
    scaleType { type := some ScaleType.linear } { field := "f", type := .quantitative }
      Channel.shape Mark.point = some ScaleType.ordinal := by
  decide

/-- C5 witness: the amended theorem applied on the x channel with an explicit
log category. -/
theorem scaleType_explicit_wins_witness :
    scaleType { type := some ScaleType.log } { field := "f", type := .nominal }
      Channel.x Mark.point = some ScaleType.log :=
  scaleType_explicit_wins { type := some ScaleType.log } { field := "f", type := .nominal }
    Channel.x Mark.point ScaleType.log rfl (by decide) (by decide) (by decide) (by decide)

/-- C4: for a stacked quantitative field's channel with no explicit domain,
the resolved domain is the interval [0, 1] when the stack offset is
normalized, and a reference to the pre-summed stacking table on the summed
field otherwise. -/
theorem domain_stacked (scale : Scale) (model : Model) (st : StackProperties)
    (hstack : model.stackOf = some st)
    (hq : (model.fieldDefOf st.fieldChannel).type = FieldType.quantitative)
    (hdom : scale.domain = none) :
    (st.offset = StackOffset.normalize →
      domain scale model st.fieldChannel = .base (.lit [0, 1])) ∧
    (st.offset ≠ StackOffset.normalize →
      domain scale model st.fieldChannel =
        .base (.ref (model.dataName STACKED_SCALE)
          (model.field st.fieldChannel { prefn := "sum_" }) none)) := by
  constructor <;> intro hoff <;> simp [domain, hdom, hstack, hq, hoff]

/-- C4 witness: a stacked y channel, normalized and non-normalized. -/
theorem domain_stacked_witness :
    (StackOffset.normalize = StackOffset.normalize →
      domain {} { baseModel with stackOf := some { fieldChannel := .y, offset := .normalize } }
        Channel.y = .base (.lit [0, 1])) ∧
    (StackOffset.normalize ≠ StackOffset.normalize →
      domain {} { baseModel with stackOf := some { fieldChannel := .y, offset := .normalize } }
        Channel.y =
        .base (.ref "p_stacked_scale" "sum_f" none)) :=
  domain_stacked {} { baseModel with stackOf := some { fieldChannel := .y, offset := .normalize } }
    { fieldChannel := .y, offset := .normalize } rfl (by decide) rfl

/-- C6: a binned quantitative field on a position channel with no explicit
scale category resolves to the linear category, and its domain references both
the bin-start and bin-end fields of the summary table. -/
theorem binned_position_linear_domain (sInit : Scale) (scale : Scale) (model : Model)
    (channel : Channel) (fieldDef : FieldDef) (mark : Mark)
    (hch : channel = Channel.x ∨ channel = Channel.y)
    (hfd : model.fieldDefOf channel = fieldDef)
    (hq : fieldDef.type = FieldType.quantitative) (hb : fieldDef.bin = true)
    (hnoexp : sInit.type = none)
    (hres : scale.type = some ScaleType.linear) (hdom : scale.domain = none)
    (hstack : model.stackOf = none) :
    scaleType sInit fieldDef channel mark = some ScaleType.linear ∧
    domain scale model channel =
      .base (.refs (model.dataName SCALE)
        [fieldRef fieldDef { binSuffix := "_start" },
         fieldRef fieldDef { binSuffix := "_end" }]) := by
  have hraw : _includeRawDomain scale model channel = false := by
    simp [_includeRawDomain, hfd, hq, hb]
  constructor
  · rcases hch with h | h <;> subst h <;>
      simp [scaleType, hasScale, hnoexp, hq, hb]
  · rcases hch with h | h <;> subst h <;>
      simp [domain, hdom, hfd, hq, hstack, domainRest, hraw, hb, hres, Model.field]

/-- C6 witness: binned quantitative field on x. -/
theorem binned_position_linear_domain_witness :
    scaleType {} { field := "b", type := .quantitative, bin := true } Channel.x Mark.point
      = some ScaleType.linear ∧
    domain { type := some ScaleType.linear }
      { baseModel with fieldDefOf := fun _ => { field := "b", type := .quantitative, bin := true } }
      Channel.x =
      .base (.refs "p_scale" ["bin_b_start", "bin_b_end"]) :=
  binned_position_linear_domain {} { type := some ScaleType.linear }
    { baseModel with fieldDefOf := fun _ => { field := "b", type := .quantitative, bin := true } }
    Channel.x { field := "b", type := .quantitative, bin := true } Mark.point
    (Or.inl rfl) rfl rfl rfl rfl rfl rfl rfl

/-- C7: a quantitative field on the vertical-position channel with no bin, no
stack and no explicit overrides resolves to the linear category with zero set
to true, a domain referencing the shared summary table on the field, and a
range running from the configured cell height down to 0. -/
theorem quantitative_y_default_scenario (sInit : Scale) (scale : Scale) (model : Model)
    (fieldDef : FieldDef) (mark : Mark)
    (hfd : model.fieldDefOf Channel.y = fieldDef)
    (hq : fieldDef.type = FieldType.quantitative) (hb : fieldDef.bin = false)
    (hagg : fieldDef.aggregate = none) (htu : fieldDef.timeUnit = none)
    (hstack : model.stackOf = none)
    (hnoexp : sInit.type = none)
    (hres : scale.type = some ScaleType.linear) (hdom : scale.domain = none)
    (hrange : scale.range = none) (hzero : scale.zero = none)
    (hraw : scale.includeRawDomain = false) :
    scaleType sInit fieldDef Channel.y mark = some ScaleType.linear ∧
    zero scale Channel.y fieldDef = some true ∧
    domain scale model Channel.y = .base (.ref (model.dataName SCALE) fieldDef.field none) ∧
    rangeMixins scale model Channel.y = .minMax model.config.cell.height 0 := by
  have hraw2 : _includeRawDomain scale model Channel.y = false := by
    simp [_includeRawDomain, hraw]
  refine ⟨?_, ?_, ?_, ?_⟩
  · simp [scaleType, hasScale, hnoexp, hq, hb]
  · simp [zero, hres, hzero, hb]
  · simp [domain, hdom, hfd, hq, hstack, domainRest, hraw2, hb, hres, domainSort,
      Model.field, fieldRef, hagg, htu]
  · simp [rangeMixins, hres, hrange]

/-- C7 witness: quantitative field "price" on y under the default
configuration. -/
theorem quantitative_y_default_scenario_witness :
    scaleType {} { field := "price", type := .quantitative } Channel.y Mark.point
      = some ScaleType.linear ∧
    zero { type := some ScaleType.linear } Channel.y { field := "price", type := .quantitative }
      = some true ∧
    domain { type := some ScaleType.linear }
      { baseModel with fieldDefOf := fun _ => { field := "price", type := .quantitative } }
      Channel.y = .base (.ref "p_scale" "price" none) ∧
    rangeMixins { type := some ScaleType.linear }
      { baseModel with fieldDefOf := fun _ => { field := "price", type := .quantitative } }
      Channel.y = .minMax 200 0 :=
  quantitative_y_default_scenario {} { type := some ScaleType.linear }
    { baseModel with fieldDefOf := fun _ => { field := "price", type := .quantitative } }
    { field := "price", type := .quantitative } Mark.point
    rfl rfl rfl rfl rfl rfl rfl rfl rfl rfl rfl rfl

/-- C3 counterexample: on a temporal aggregated field with a continuous time
scale the raw-domain override condition holds, yet the resolved domain is the
temporal summary reference, not the unaggregated source reference — the
temporal rule of the domain function fires first. -/
theorem includeRawDomain_temporal_counterexample :
    _includeRawDomain { includeRawDomain := true, type := some ScaleType.time }
      { baseModel with fieldDefOf := fun _ =>
        { field := "d", type := .temporal, aggregate := some "mean" } } Channel.x = true ∧
    domain { includeRawDomain := true, type := some ScaleType.time }
      { baseModel with fieldDefOf := fun _ =>
        { field := "d", type := .temporal, aggregate := some "mean" } } Channel.x ≠
      .base (.ref SCALE
        (fieldRef { field := "d", type := .temporal, aggregate := some "mean" }
          { noAggregate := true }) none) ∧
    domain { includeRawDomain := true, type := some ScaleType.time }
      { baseModel with fieldDefOf := fun _ =>
        { field := "d", type := .temporal, aggregate := some "mean" } } Channel.x =
      .base (.ref "p_scale" "mean_d" (some (.fieldOp "mean_d" "min"))) := by
  decide

/-- C3 amended claim: the raw-domain override condition holds exactly when the
scale carries the resolved includeRawDomain flag, the field has an aggregation
in the shared-domain set, and the field is quantitative-unbinned or temporal
with a continuous time category; when it holds for a quantitative field and no
earlier domain rule applies (no explicit domain, channel not stacked), the
domain references the unaggregated source table on the field with aggregation
suppressed.  For temporal fields the temporal rule takes precedence. -/
theorem includeRawDomain_characterization (scale : Scale) (model : Model) (channel : Channel) :
    (_includeRawDomain scale model channel = true ↔
      (scale.includeRawDomain = true ∧
       (∃ a, (model.fieldDefOf channel).aggregate = some a ∧ a ∈ SHARED_DOMAIN_OPS) ∧
       (((model.fieldDefOf channel).type = FieldType.quantitative ∧
         (model.fieldDefOf channel).bin = false) ∨
        ((model.fieldDefOf channel).type = FieldType.temporal ∧
         (scale.type = some ScaleType.time ∨ scale.type = some ScaleType.utc))))) ∧
    (_includeRawDomain scale model channel = true →
     (model.fieldDefOf channel).type = FieldType.quantitative →
     scale.domain = none →
     (∀ st, model.stackOf = some st → channel ≠ st.fieldChannel) →
     domain scale model channel =
       .base (.ref SCALE (model.field channel { noAggregate := true }) none)) := by
  constructor
  · unfold _includeRawDomain
    rcases hagg : (model.fieldDefOf channel).aggregate with _ | a
    · simp [hagg]
    · cases ht : (model.fieldDefOf channel).type <;>
        simp [hagg, ht, List.contains, List.elem_iff, and_assoc, Bool.and_eq_true, or_comm]
  · intro hraw hq hdom hstack
    have htemp : (model.fieldDefOf channel).type ≠ FieldType.temporal := by
      rw [hq]; intro hcon; exact FieldType.noConfusion hcon
    rcases hst : model.stackOf with _ | st
    · simp [domain, hdom, hq, hst, domainRest, hraw]
    · have hne : channel ≠ st.fieldChannel := hstack st hst
      simp [domain, hdom, hq, hst, hne, domainRest, hraw]

/-- C3 witness: the characterization applied to a quantitative mean-aggregated
field with the override requested, including the resulting raw-source
domain. -/
theorem includeRawDomain_characterization_witness :
    _includeRawDomain { includeRawDomain := true }
      { baseModel with fieldDefOf := fun _ =>
        { field := "v", type := .quantitative, aggregate := some "mean" } } Channel.y = true ∧
    domain { includeRawDomain := true }
      { baseModel with fieldDefOf := fun _ =>
        { field := "v", type := .quantitative, aggregate := some "mean" } } Channel.y =
      .base (.ref SCALE "v" none) := by
  refine ⟨by decide, ?_⟩
  have h := (includeRawDomain_characterization { includeRawDomain := true }
    { baseModel with fieldDefOf := fun _ =>
      { field := "v", type := .quantitative, aggregate := some "mean" } } Channel.y).2
    (by decide) (by decide) rfl (by intro st hst; simp [baseModel] at hst)
  simpa [Model.field, fieldRef] using h

/-- C8: an auxiliary color-legend scale is produced exactly when the channel is
color, a color legend is requested, and the field is ordinal, binned or has a
time unit; the binned-label legend scale is produced exactly when additionally
the field is binned; a plain nominal field produces no auxiliary scale. -/
theorem parseScaleComponent_legend_iff (model : Model) (channel : Channel)
    (comps : ScaleComponents) (hmem : (channel, comps) ∈ parseScaleComponent model) :
    ((comps.colorLegend.isSome = true) ↔
      (channel = Channel.color ∧ model.legendOf Channel.color = true ∧
       ((model.fieldDefOf channel).type = FieldType.ordinal ∨
        (model.fieldDefOf channel).bin = true ∨
        (model.fieldDefOf channel).timeUnit.isSome = true))) ∧
    ((comps.binColorLegend.isSome = true) ↔
      (channel = Channel.color ∧ model.legendOf Channel.color = true ∧
       ((model.fieldDefOf channel).type = FieldType.ordinal ∨
        (model.fieldDefOf channel).bin = true ∨
        (model.fieldDefOf channel).timeUnit.isSome = true) ∧
       (model.fieldDefOf channel).bin = true)) := by
  simp only [parseScaleComponent, List.mem_filterMap] at hmem
  obtain ⟨ch, _, heq⟩ := hmem
  rcases hsc : model.scaleOf ch with _ | s <;> rw [hsc] at heq
  · simp at heq
  · simp only [Option.map_some', Option.some.injEq, Prod.mk.injEq] at heq
    obtain ⟨hch, hcomps⟩ := heq
    rw [hch] at hcomps
    subst hcomps
    unfold parseChannelScales
    by_cases hcol : channel = Channel.color
    · subst hcol
      by_cases hleg : model.legendOf Channel.color = true
      · by_cases hdisj : (model.fieldDefOf Channel.color).type = FieldType.ordinal ∨
            (model.fieldDefOf Channel.color).bin = true ∨
            (model.fieldDefOf Channel.color).timeUnit.isSome = true
        · rw [if_pos ⟨rfl, hleg, hdisj⟩]
          by_cases hbin : (model.fieldDefOf Channel.color).bin = true
          · simp only [hbin, if_pos]
            simp [hleg, hbin]
          · simp only [hbin, if_neg]
            simp [hleg, hbin]
            tauto
        · rw [if_neg (by tauto)]
          simp [hdisj]
      · rw [if_neg (by tauto)]
        simp [hleg]
    · rw [if_neg (by tauto)]
      simp [hcol]

/-- C8 witness: an ordinal field on color with a legend produces the
color-legend scale but no bin-label scale; applied through the iff. -/
theorem parseScaleComponent_legend_iff_witness :
    (((parseChannelScales
        { baseModel with
          fieldDefOf := fun _ => { field := "r", type := .ordinal }
          channelsList := [Channel.color] } Channel.color {}).colorLegend.isSome = true) ↔
      (Channel.color = Channel.color ∧ True ∧ (FieldType.ordinal = FieldType.ordinal ∨
        False ∨ False))) ∧
    ((parseChannelScales
        { baseModel with
          fieldDefOf := fun _ => { field := "r", type := .ordinal }
          channelsList := [Channel.color] } Channel.color {}).binColorLegend.isSome = true ↔
      (Channel.color = Channel.color ∧ True ∧ (FieldType.ordinal = FieldType.ordinal ∨
        False ∨ False) ∧ False)) := by
  have h := parseScaleComponent_legend_iff
    { baseModel with
      fieldDefOf := fun _ => { field := "r", type := .ordinal }
      channelsList := [Channel.color] } Channel.color
    (parseChannelScales
      { baseModel with
        fieldDefOf := fun _ => { field := "r", type := .ordinal }
        channelsList := [Channel.color] } Channel.color {})
    (by simp [parseScaleComponent, baseModel])
  simpa [baseModel] using h

/-- C9: when an implicit width (or height) must be computed without a
corresponding position scale, outside the text-mark path, and the configured
range step is a string, size initialization throws synchronously. -/
theorem initSize_string_rangeStep_throws (mark : Mark) (scaleX scaleY : Option UnitScale)
    (height : Option Int) (w₀ : Int) (cell : CellConfig) (sc : UnitScaleConfig) (s : String)
    (hstep : sc.rangeStep = .str s) (hmark : mark ≠ Mark.text) :
    initSize mark none scaleY none height cell sc =
      .error "_initSize does not handle string rangeSteps" ∧
    initSize mark scaleX none (some w₀) none cell sc =
      .error "_initSize does not handle string rangeSteps" := by
  constructor
  · simp only [initSize, hstep, if_neg hmark]
    rfl
  · simp only [initSize, hstep]
    rfl

/-- C9 witness: a point mark with no position scales and a string range step
throws in both the width and the height computation. -/
theorem initSize_string_rangeStep_throws_witness :
    initSize Mark.point none none none none {} { rangeStep := .str "wide" } =
      .error "_initSize does not handle string rangeSteps" ∧
    initSize Mark.point none none (some 100) none {} { rangeStep := .str "wide" } =
      .error "_initSize does not handle string rangeSteps" :=
  initSize_string_rangeStep_throws Mark.point none none none 100 {}
    { rangeStep := .str "wide" } "wide" rfl (by decide)

/-- C1 counterexample: for a channel no sub-view defines, mergeScales raises a
null dereference instead of returning none without error. -/
theorem mergeScales_no_child_counterexample :
    mergeScales "layer_" [{ namePre := "c0_", comp := none }] =
      .error .nullDereference := by
  rfl

/-- C1 amended claim: for every channel such that no sub-view defines a scale
component, mergeScales does not silently return none — its unguarded final
domain assignment dereferences the null component set and raises. -/
theorem mergeScales_no_child_raises (p : String) (children : List LayerChild)
    (h : ∀ c ∈ children, c.comp = none) :
    mergeScales p children = .error .nullDereference := by
  have hfold : ∀ (cs : List LayerChild), (∀ c ∈ cs, c.comp = none) →
      ∀ st : Option ScaleComponents × List BaseDomain,
        cs.foldl (mergeStep p) st = st := by
    intro cs
    induction cs with
    | nil => intro _ st; rfl
    | cons c rest ih =>
      intro hall st
      have hc : c.comp = none := hall c (List.mem_cons_self c rest)
      rw [List.foldl_cons]
      have hstep : mergeStep p st c = st := by
        unfold mergeStep
        rw [hc]
      rw [hstep]
      exact ih (fun x hx => hall x (List.mem_cons_of_mem c hx)) st
  unfold mergeScales
  rw [hfold children h]

/-- C1 witness: the amended theorem applied to two componentless children. -/
theorem mergeScales_no_child_raises_witness :
    mergeScales "layer_" [{ namePre := "c0_", comp := none },
                          { namePre := "c1_", comp := none }] =
      .error .nullDereference :=
  mergeScales_no_child_raises "layer_"
    [{ namePre := "c0_", comp := none }, { namePre := "c1_", comp := none }]
    (by decide)

/-- View a named component pair as a defined layer child. -/
def asChild (pc : String × ScaleComponents) : LayerChild :=
  { namePre := pc.1, comp := some pc.2 }

theorem mergeStep_foldl_snd (p : String) (pairs : List (String × ScaleComponents)) :
    ∀ st : Option ScaleComponents × List BaseDomain,
      ((pairs.map asChild).foldl (mergeStep p) st).2 =
        pairs.foldl (fun ds pc => collectDomain ds pc.2.main.domain) st.2 := by
  induction pairs with
  | nil => intro st; rfl
  | cons a rest ih =>
    intro st
    simp only [List.map_cons, List.foldl_cons]
    rw [ih]
    rfl

theorem mergeStep_foldl_fst (p : String) (pairs : List (String × ScaleComponents)) :
    ∀ st : Option ScaleComponents × List BaseDomain, st.1.isSome = true →
      ((((pairs.map asChild).foldl (mergeStep p) st)).1).isSome = true := by
  induction pairs with
  | nil => intro st h; exact h
  | cons a rest ih =>
    intro st h
    simp only [List.map_cons, List.foldl_cons]
    apply ih
    rcases hst : st.1 with _ | sc <;> simp [mergeStep, asChild, hst]

/-- C2: merging sub-views that all define the channel flattens their main-scale
domains into a de-duplicated collection keyed by structural identity (unions
are expanded into their members, plain domains are kept whole, repeated
identical domains collapse to one entry), and assigns a single surviving
domain directly, otherwise a union of all distinct domains. -/
theorem mergeScales_domain_dedup (p : String) (pairs : List (String × ScaleComponents))
    (hne : pairs ≠ []) :
    ∃ r, mergeScales p (pairs.map asChild) = .ok r ∧
      r.main.domain =
        mergeDomainList
          (pairs.foldl (fun ds pc => collectDomain ds pc.2.main.domain) []) := by
  have hsnd := mergeStep_foldl_snd p pairs (none, [])
  have hfst : ((((pairs.map asChild).foldl (mergeStep p) (none, []))).1).isSome = true := by
    cases pairs with
    | nil => exact absurd rfl hne
    | cons a rest =>
      simp only [List.map_cons, List.foldl_cons]
      apply mergeStep_foldl_fst
      simp [mergeStep, asChild]
  rcases hsc : ((pairs.map asChild).foldl (mergeStep p) (none, [])).1 with _ | sc
  · rw [hsc] at hfst
    simp at hfst
  · refine ⟨{ main := { sc.main with
                domain := mergeDomainList
                  (((pairs.map asChild).foldl (mergeStep p) (none, [])).2) }
              colorLegend := sc.colorLegend.map (fun s => { s with
                domain := mergeDomainList
                  (((pairs.map asChild).foldl (mergeStep p) (none, [])).2) })
              binColorLegend := sc.binColorLegend.map (fun s => { s with
                domain := mergeDomainList
                  (((pairs.map asChild).foldl (mergeStep p) (none, [])).2) }) }, ?_, ?_⟩
    · simp only [mergeScales]
      rw [hsc]
    · show mergeDomainList (((pairs.map asChild).foldl (mergeStep p) (none, [])).2) = _
      rw [hsnd]

/-- Two sub-view component sets with an identical main-scale domain
reference. -/
def pairsC2 : List (String × ScaleComponents) :=
  [("c0_", { main := { name := "c0_y", type := some .linear
                       domain := .base (.ref "p_scale" "price" none) } }),
   ("c1_", { main := { name := "c1_y", type := some .linear
                       domain := .base (.ref "p_scale" "price" none) } })]

/-- The component set produced by merging the two identical-domain
sub-views. -/
def rC2 : ScaleComponents :=
  ((mergeScales "l_" (pairsC2.map asChild)).toOption).getD { main := { name := "" } }

/-- C2 witness: two sub-views with identical summary-table domain references
merge into exactly one domain entry, assigned directly rather than as a
two-element union. -/
theorem mergeScales_domain_dedup_witness :
    mergeScales "l_" (pairsC2.map asChild) = .ok rC2 ∧
    rC2.main.domain =
      mergeDomainList (pairsC2.foldl (fun ds pc => collectDomain ds pc.2.main.domain) []) ∧
    rC2.main.domain = .base (.ref "p_scale" "price" none) ∧
    rC2.main.name = "l_y" := by
  obtain ⟨r, hr, hd⟩ := mergeScales_domain_dedup "l_" pairsC2 (by decide)
  have hok : mergeScales "l_" (pairsC2.map asChild) = Except.ok rC2 := by rfl
  rw [hok] at hr
  simp only [Except.ok.injEq] at hr
  subst hr
  exact ⟨hok, hd, by decide, by decide⟩

/-- C10: whenever mergeScales returns a component set, the auxiliary
color-legend and binned-label legend scales (when present) carry exactly the
same merged domain as the main scale. -/
theorem mergeScales_shared_domain (p : String) (children : List LayerChild)
    (r : ScaleComponents) (h : mergeScales p children = .ok r) :
    (∀ cl, r.colorLegend = some cl → cl.domain = r.main.domain) ∧
    (∀ bl, r.binColorLegend = some bl → bl.domain = r.main.domain) := by
  simp only [mergeScales] at h
  rcases hsc : (children.foldl (mergeStep p) (none, [])).1 with _ | sc <;> rw [hsc] at h
  · simp at h
  · simp only [Except.ok.injEq] at h
    subst h
    constructor
    · intro cl hcl
      rw [Option.map_eq_some'] at hcl
      obtain ⟨c, _, hcl⟩ := hcl
      subst hcl
      rfl
    · intro bl hbl
      rw [Option.map_eq_some'] at hbl
      obtain ⟨c, _, hbl⟩ := hbl
      subst hbl
      rfl

/-- Children with auxiliary legend scales, used to instantiate the shared
merged-domain invariant. -/
def childrenC10 : List LayerChild :=
  [{ namePre := "c0_"
     comp := some
       { main := { name := "c0_color", type := some .linear
                   domain := .base (.ref "p_scale" "bin_v_start" none) }
         colorLegend := some { name := "c0_color_legend", type := some .ordinal
                               domain := .base (.ref "p_scale" "bin_v" (some (.bool true))) }
         binColorLegend := some { name := "c0_color_legend_label", type := some .ordinal
                                  domain := .base (.ref "p_scale" "bin_v_range" none) } } },
   { namePre := "c1_"
     comp := some
       { main := { name := "c1_color", type := some .linear
                   domain := .base (.ref "q_scale" "bin_w_start" none) } } }]

/-- The merged component set of the legend-carrying children. -/
def rC10 : ScaleComponents :=
  ((mergeScales "l_" childrenC10).toOption).getD { main := { name := "" } }

def clC10 : VgScale := (rC10.colorLegend).getD { name := "" }

def blC10 : VgScale := (rC10.binColorLegend).getD { name := "" }

/-- C10 witness: in a concrete merge with both auxiliary scales present, each
auxiliary scale's domain equals the merged main-scale domain. -/
theorem mergeScales_shared_domain_witness :
    clC10.domain = rC10.main.domain ∧ blC10.domain = rC10.main.domain :=
  ⟨(mergeScales_shared_domain "l_" childrenC10 rC10 rfl).1 clC10 rfl,
   (mergeScales_shared_domain "l_" childrenC10 rC10 rfl).2 blC10 rfl⟩

end VL
